import Mathlib

/-
Verification of the avalon-core pipeline and host-context registry.

The definitions below are a shallow embedding of `src/avalon/pipeline.py` and
`src/avalon/host_context.py`.  Python dictionaries become association lists,
document objects become structures, fallible code returns `Except PyErr`, and
filesystem / database collaborators are passed in as explicit parameters.
Each definition keeps the name of the Python function it embeds.
-/

namespace Avalon

/-- Python exception classes raised (and caught) by the embedded code.
`keyError` stands for `KeyError`, `indexError` for `IndexError`,
`environmentError` for `EnvironmentError`, `incompatibleLoaderError` for the
repository's own `IncompatibleLoaderError(ValueError)` (pipeline.py:63),
`assertionError` for a failed `assert`, `valueError` for `ValueError`,
`runtimeError` for `RuntimeError`, and `regexUnsupported` marks a regex
construct outside the fragment this embedding models (never produced by the
patterns the source builds). -/
inductive PyErr where
  | keyError
  | indexError
  | typeError (msg : String)
  | attributeError (msg : String)
  | environmentError (msg : String)
  | incompatibleLoaderError (msg : String)
  | assertionError (msg : String)
  | valueError (msg : String)
  | runtimeError (msg : String)
  | regexUnsupported
deriving DecidableEq, Repr

deriving instance DecidableEq for Except

/-- Subset document: the fields of the subset read by `is_compatible_loader`
(pipeline.py:1611-1612) and `load` (pipeline.py:1270, 1280).
`dataFamilies = none` models a document whose `data` mapping has no
`families` key (indexing it raises `KeyError`). -/
structure SubsetDoc where
  name : String
  schema : String
  dataFamilies : Option (List String) := none
deriving DecidableEq, Repr

/-- Version document: `data.get("families", [])` is read at pipeline.py:1614. -/
structure VersionDoc where
  name : String
  dataFamilies : Option (List String) := none
deriving DecidableEq, Repr

/-- Asset document fields used by `get_representation_path` (pipeline.py:1496-1511). -/
structure AssetDoc where
  name : String
  silo : Option String := none
  dataHierarchy : Option String := none
  dataParents : Option (List String) := none
deriving DecidableEq, Repr

/-- Project document fields used by `get_representation_context`
(pipeline.py:1064-1067) and `get_representation_path` (pipeline.py:1487, 1506-1508). -/
structure ProjectDoc where
  name : String
  dataCode : Option String := none
  configTemplatePublish : Option String := none
deriving DecidableEq, Repr

/-- Representation document: `name` (pipeline.py:1616-1620), and the
`data.template` / `context` / `data.path` fields read by the three tiers of
`get_representation_path` (pipeline.py:1454-1559).  A `none` field models a
missing dictionary key. -/
structure ReprDoc where
  name : String
  dataTemplate : Option String := none
  context : Option (List (String × String)) := none
  dataPath : Option String := none
deriving DecidableEq, Repr

/-- The full parenthood context assembled by `get_representation_context`
(pipeline.py:1063-1072): project name/code plus the four documents. -/
structure Context where
  projectName : String
  projectCode : String
  asset : AssetDoc
  subset : SubsetDoc
  version : VersionDoc
  representation : ReprDoc
deriving DecidableEq, Repr

/-- Loader class metadata and behaviour, embedding the class-level attributes
`families` / `representations` of `Loader` (pipeline.py:180-181) together
with the `load` entry point invoked by the orchestration function `load`
(pipeline.py:1287).  `legacyProcess` is `some p` when the class exposes the
old-style single `process` entry point checked by
`_make_backwards_compatible_loader` (pipeline.py:1234). -/
structure LoaderCls (α : Type) where
  name : String
  families : List String
  representations : List String
  loadFn : Context → String → Option String → List (String × String) → α
  legacyProcess : Option (Context → α) := none

/-- The family list `is_compatible_loader` selects from the context
(pipeline.py:1611-1614): the subset's `data["families"]` under schema
`avalon-core:subset-3.0` (direct indexing, so a missing key is a `KeyError`,
modelled as `none`), otherwise the version's `data.get("families", [])`. -/
def contextFamilies (c : Context) : Option (List String) :=
  if c.subset.schema = "avalon-core:subset-3.0" then
    c.subset.dataFamilies
  else
    some (c.version.dataFamilies.getD [])

/-- Embedding of `is_compatible_loader` (pipeline.py:1601-1621):
`has_family = "*" in Loader.families or any(family in Loader.families for
family in families)`, `has_representation = "*" in Loader.representations or
representation["name"] in Loader.representations`, result
`has_family and has_representation`. -/
def is_compatible_loader (L : LoaderCls α) (c : Context) : Except PyErr Bool :=
  match contextFamilies c with
  | none => .error .keyError
  | some families =>
    let has_family :=
      L.families.contains "*" || families.any (fun family => L.families.contains family)
    let has_representation :=
      L.representations.contains "*" || L.representations.contains c.representation.name
    .ok (has_family && has_representation)

/-- C1: for every Loader class `L` and representation context `c` (whose
family set resolves to `fams`), `is_compatible_loader L c` returns `true`
iff (`"*"` is in `L.families` or some family of the context's family set is
in `L.families`) and (`"*"` is in `L.representations` or the context
representation's name is in `L.representations`).  Both conjuncts are
required, and a wildcard on one axis never satisfies the other axis. -/
theorem is_compatible_loader_iff (L : LoaderCls α) (c : Context) (fams : List String)
    (h : contextFamilies c = some fams) :
    is_compatible_loader L c = .ok true ↔
      (("*" ∈ L.families ∨ ∃ f ∈ fams, f ∈ L.families) ∧
        ("*" ∈ L.representations ∨ c.representation.name ∈ L.representations)) := by
  unfold is_compatible_loader
  rw [h]
  simp [List.elem_iff, List.any_eq_true]

/-- Concrete loader used by the C1 witness. -/
def c1Loader : LoaderCls Nat :=
  { name := "ModelLoader", families := ["model"], representations := ["*"],
    loadFn := fun _ _ _ _ => 0 }

/-- Concrete context used by the C1 witness. -/
def c1Ctx : Context :=
  { projectName := "P", projectCode := "p",
    asset := { name := "hero" },
    subset := { name := "modelMain", schema := "avalon-core:subset-2.0" },
    version := { name := "1", dataFamilies := some ["model", "rig"] },
    representation := { name := "ma" } }

/-- Witness for C1: a loader with `families = ["model"]`,
`representations = ["*"]` is compatible with a context whose family set is
`["model", "rig"]`. -/
theorem is_compatible_loader_iff_witness :
    is_compatible_loader c1Loader c1Ctx = .ok true :=
  (is_compatible_loader_iff c1Loader c1Ctx ["model", "rig"] rfl).mpr (by decide)

/-- Embedding of `get_representation_context` (pipeline.py:1039-1074).
The database collaborator is the `parenthood` resolution function of spec
section 6 (`io`/`dbcon` is not under `src/`): it returns the
`(version, subset, asset, project)` chain, or `none` when an ancestor is
missing, in which case the Python call raises `ValueError` (the error
`path_from_config` catches at pipeline.py:1479).  A `none` representation
(the id did not resolve) fails the function's own
`assert representation is not None` / `assert all(...)` checks. -/
def get_representation_context
    (parenthood : ReprDoc → Option (VersionDoc × SubsetDoc × AssetDoc × ProjectDoc))
    (representation : Option ReprDoc) : Except PyErr Context :=
  match representation with
  | none => .error (.assertionError "This is a bug")
  | some r =>
    match parenthood r with
    | none => .error (.valueError "parenthood: ancestor missing")
    | some (version, subset, asset, project) =>
      .ok { projectName := project.name, projectCode := project.dataCode.getD "",
            asset := asset, subset := subset, version := version, representation := r }

/-- Embedding of `_make_backwards_compatible_loader` (pipeline.py:1221-1239).
A loader exposing a legacy `process` entry point is wrapped so that `load`
delegates to `process`; class metadata (`families`, `representations`,
`__name__`) is inherited unchanged.  The wrapper class itself
(`avalon.maya.compat.BackwardsCompatibleLoader`) is not under `src/`;
its delegation behaviour is modelled from the spec (section 4.5:
"implements load/update/remove by delegating to process"). -/
def _make_backwards_compatible_loader (L : LoaderCls α) : LoaderCls α :=
  match L.legacyProcess with
  | none => L
  | some p => { L with loadFn := fun context _ _ _ => p context }

/-- The call `get_representation_context(representation)` as written at the
`load` call site (pipeline.py:1264).  The function it names requires a
second positional parameter `dbcon` with no default (pipeline.py:1039), so
Python raises `TypeError` at the call, before the function body runs. -/
def get_representation_context_no_dbcon (_representation : Option ReprDoc) :
    Except PyErr Context :=
  .error (.typeError
    "get_representation_context() missing 1 required positional argument: dbcon")

/-- Embedding of `load` (pipeline.py:1242-1287): wrap the loader for
backwards compatibility, then call
`get_representation_context(representation)` — with the required `dbcon`
argument missing, so the call raises `TypeError` and the remainder of the
body (the `is_compatible_loader` gate, the `options`/`name` defaulting and
the delegation to the instance's `load`) is dead code, kept here as the
source writes it. -/
def load (L : LoaderCls α)
    (representation : Option ReprDoc) (nspace name : Option String)
    (options : Option (List (String × String))) : Except PyErr α :=
  let Lw := _make_backwards_compatible_loader L
  match get_representation_context_no_dbcon representation with
  | .error e => .error e
  | .ok context =>
    match is_compatible_loader Lw context with
    | .error e => .error e
    | .ok compatible =>
      if !compatible then
        .error (.incompatibleLoaderError
          ("Loader " ++ Lw.name ++ " is incompatible with " ++ context.subset.name))
      else
        let options := options.getD []
        let name := name.getD context.subset.name
        .ok (Lw.loadFn context name nspace options)

/-- The backwards-compatibility wrapper only swaps the `load` entry point;
compatibility metadata is untouched. -/
theorem is_compatible_loader_backwards (L : LoaderCls α) (c : Context) :
    is_compatible_loader (_make_backwards_compatible_loader L) c =
      is_compatible_loader L c := by
  unfold _make_backwards_compatible_loader
  cases L.legacyProcess <;> rfl

/-- C4 (code bug): the claim describes `load`'s documented behaviour
(resolve the parenthood context, raise the distinct
`IncompatibleLoaderError` when `is_compatible_loader` is false, default
`name` to the subset's name, delegate to the instance's `load`), and the
source's own docstring promises the same (pipeline.py:1257-1259) — but the
body's first step calls `get_representation_context(representation)`
without the required `dbcon` argument (pipeline.py:1264 vs 1039), so every
call of `load` fails with `TypeError` before the compatibility check: the
documented paths, `IncompatibleLoaderError` included, are unreachable. -/
theorem load_missing_dbcon (L : LoaderCls α)
    (representation : Option ReprDoc) (nspace name : Option String)
    (options : Option (List (String × String))) :
    load L representation nspace name options =
      .error (.typeError
        "get_representation_context() missing 1 required positional argument: dbcon") :=
  rfl

/-- A Python class as seen by plug-in discovery: its `__name__` and its
`__bases__` (which are classes again).  `plugin_from_module`
(pipeline.py:735-778) only ever inspects names and (transitive) bases. -/
inductive PluginClass where
  | mk (name : String) (bases : List PluginClass)

/-- The `__name__` attribute. -/
def PluginClass.name : PluginClass → String
  | .mk n _ => n

/-- The `__bases__` attribute. -/
def PluginClass.bases : PluginClass → List PluginClass
  | .mk _ b => b

/-- Embedding of the nested `recursive_bases` helper of `plugin_from_module`
(pipeline.py:750-756): direct bases followed by their recursive bases. -/
def recursiveBases : PluginClass → List PluginClass
  | .mk _ bases => bases ++ bases.attach.flatMap (fun b => recursiveBases b.1)
decreasing_by
  have h := List.sizeOf_lt_of_mem b.2
  simp only [PluginClass.mk.sizeOf_spec]
  omega

/-- Embedding of `plugin_from_module` (pipeline.py:735-778).  The module is
modelled as its class-valued attributes in `dir(module)` order; the function
keeps a class iff it has at least one base and some transitive base has the
same name as the superclass (string comparison, not identity). -/
def plugin_from_module (superName : String) (module : List PluginClass) : List PluginClass :=
  module.filter (fun obj =>
    decide (obj.bases.length > 0) &&
    (recursiveBases obj).any (fun base => base.name == superName))

/-- The `plugins` dictionary of `HostContext.discover`
(host_context.py:152-167): an insertion-ordered association list from class
name to class. -/
abbrev PluginDict := List (String × PluginClass)

/-- Path-discovery insertion (host_context.py:158-162): a duplicate name is
reported (`print`) and skipped, otherwise `plugins[plugin.__name__] = plugin`
appends a fresh key. -/
def dictInsertSkip (m : PluginDict) (p : PluginClass) : PluginDict :=
  if m.any (fun kv => kv.1 == p.name) then m else m ++ [(p.name, p)]

/-- Registered-plugin insertion (host_context.py:164-167): a duplicate name
is reported (`print`) and then overwritten in place;
a fresh name is appended. -/
def dictInsertOverwrite (m : PluginDict) (p : PluginClass) : PluginDict :=
  if m.any (fun kv => kv.1 == p.name) then
    m.map (fun kv => if kv.1 == p.name then (kv.1, p) else kv)
  else m ++ [(p.name, p)]

/-- Embedding of `HostContext.discover` (host_context.py:148-169).
`pathModules` is the list of modules imported from the registered plug-in
paths for the superclass (the `lib.modules_from_path` import loop; `lib` is
not under `src/`), `registered` the explicitly registered plug-ins for it.
Path plug-ins are filtered by `plugin_from_module`, entered into the
dictionary skipping duplicate names, then registered plug-ins are entered
overwriting same-name entries, and the values are returned sorted by
`__name__` (Python's `sorted` is stable, as is `mergeSort`). -/
def discover (superName : String) (pathModules : List (List PluginClass))
    (registered : List PluginClass) : List PluginClass :=
  let pathPlugins := pathModules.flatMap (plugin_from_module superName)
  let m1 := pathPlugins.foldl dictInsertSkip []
  let m2 := registered.foldl dictInsertOverwrite m1
  (m2.map Prod.snd).mergeSort (fun a b => a.name ≤ b.name)

/-- Any entry of the dictionary after a skip-insertion was already there or
is the inserted plug-in under its own name. -/
theorem mem_dictInsertSkip (m : PluginDict) (p : PluginClass) (kv : String × PluginClass)
    (h : kv ∈ dictInsertSkip m p) : kv ∈ m ∨ kv = (p.name, p) := by
  unfold dictInsertSkip at h
  split at h
  · exact Or.inl h
  · rcases List.mem_append.mp h with h' | h'
    · exact Or.inl h'
    · simp at h'
      exact Or.inr h'

/-- Any entry of the dictionary after an overwrite-insertion was already
there or is the inserted plug-in under its own name. -/
theorem mem_dictInsertOverwrite (m : PluginDict) (p : PluginClass) (kv : String × PluginClass)
    (h : kv ∈ dictInsertOverwrite m p) : kv ∈ m ∨ kv = (p.name, p) := by
  unfold dictInsertOverwrite at h
  split at h
  · rcases List.mem_map.mp h with ⟨kv', hkv', heq⟩
    by_cases hname : (kv'.1 == p.name) = true
    · right
      rw [if_pos hname] at heq
      have : kv'.1 = p.name := by
        exact eq_of_beq hname
      rw [← heq, this]
    · left
      rw [if_neg hname] at heq
      rw [← heq]
      exact hkv'
  · rcases List.mem_append.mp h with h' | h'
    · exact Or.inl h'
    · simp at h'
      exact Or.inr h'

/-- Fold version of the two membership lemmas: every entry comes from the
initial dictionary or from one of the inserted plug-ins. -/
theorem mem_foldl_insert (ins : PluginDict → PluginClass → PluginDict)
    (hins : ∀ m p kv, kv ∈ ins m p → kv ∈ m ∨ kv = (p.name, p))
    (l : List PluginClass) :
    ∀ (m : PluginDict) (kv : String × PluginClass), kv ∈ l.foldl ins m →
      kv ∈ m ∨ ∃ p ∈ l, kv = (p.name, p) := by
  induction l with
  | nil => intro m kv h; exact Or.inl h
  | cons x xs ih =>
    intro m kv h
    rcases ih (ins m x) kv h with h' | ⟨p, hp, hkv⟩
    · rcases hins m x kv h' with h'' | h''
      · exact Or.inl h''
      · exact Or.inr ⟨x, List.mem_cons_self .., h''⟩
    · exact Or.inr ⟨p, List.mem_cons_of_mem _ hp, hkv⟩

/-- The overwrite-insertion always leaves the inserted plug-in present under
its own name. -/
theorem self_mem_dictInsertOverwrite (m : PluginDict) (p : PluginClass) :
    (p.name, p) ∈ dictInsertOverwrite m p := by
  unfold dictInsertOverwrite
  split
  · rename_i hany
    rcases List.any_eq_true.mp hany with ⟨kv, hkv, hb⟩
    have h1 : kv.1 = p.name := eq_of_beq hb
    refine List.mem_map.mpr ⟨kv, hkv, ?_⟩
    rw [if_pos hb, h1]
  · exact List.mem_append.mpr (Or.inr (by simp))

/-- Overwriting with a plug-in of a different name preserves an entry. -/
theorem mem_dictInsertOverwrite_of_ne (m : PluginDict) (p : PluginClass)
    (n : String) (q : PluginClass) (hne : n ≠ p.name) (h : (n, q) ∈ m) :
    (n, q) ∈ dictInsertOverwrite m p := by
  unfold dictInsertOverwrite
  split
  · refine List.mem_map.mpr ⟨(n, q), h, ?_⟩
    rw [if_neg (by simpa using hne)]
  · exact List.mem_append.mpr (Or.inl h)

/-- Folding overwrite-insertions of plug-ins that all carry a different name
preserves an entry. -/
theorem mem_foldl_insertOverwrite_of_ne (l : List PluginClass) :
    ∀ (m : PluginDict) (n : String) (q : PluginClass),
      (n, q) ∈ m → (∀ y ∈ l, y.name ≠ n) → (n, q) ∈ l.foldl dictInsertOverwrite m := by
  induction l with
  | nil => intro m n q h _; exact h
  | cons x xs ih =>
    intro m n q h hne
    refine ih (dictInsertOverwrite m x) n q ?_ (fun y hy => hne y (List.mem_cons_of_mem _ hy))
    exact mem_dictInsertOverwrite_of_ne m x n q
      (fun he => hne x (List.mem_cons_self ..) he.symm) h

/-- A direct base is among the recursive bases. -/
theorem mem_recursiveBases_of_mem_bases (k b : PluginClass) (h : b ∈ k.bases) :
    b ∈ recursiveBases k := by
  cases k with
  | mk n bs =>
    unfold recursiveBases
    exact List.mem_append.mpr (Or.inl (by simpa using h))

/-- Skip-insertions never remove an entry. -/
theorem mem_foldl_insertSkip_mono (l : List PluginClass) :
    ∀ (m : PluginDict) (kv : String × PluginClass), kv ∈ m →
      kv ∈ l.foldl dictInsertSkip m := by
  induction l with
  | nil => intro m kv h; exact h
  | cons x xs ih =>
    intro m kv h
    refine ih (dictInsertSkip m x) kv ?_
    unfold dictInsertSkip
    split
    · exact h
    · exact List.mem_append.mpr (Or.inl h)

/-- After a skip-insertion the inserted plug-in's name is present as a key. -/
theorem key_mem_dictInsertSkip (m : PluginDict) (p : PluginClass) :
    ∃ q, (p.name, q) ∈ dictInsertSkip m p := by
  unfold dictInsertSkip
  split
  · rename_i hany
    rcases List.any_eq_true.mp hany with ⟨kv, hkv, hb⟩
    refine ⟨kv.2, ?_⟩
    have h1 : kv.1 = p.name := eq_of_beq hb
    rcases kv with ⟨k1, k2⟩
    rw [← h1]
    exact hkv
  · exact ⟨p, List.mem_append.mpr (Or.inr (by simp))⟩

/-- Every plug-in fed to the skip-insertion fold leaves its name present as
a key of the resulting dictionary. -/
theorem key_mem_foldl_insertSkip (l : List PluginClass) :
    ∀ (m : PluginDict) (p : PluginClass), p ∈ l →
      ∃ q, (p.name, q) ∈ l.foldl dictInsertSkip m := by
  induction l with
  | nil => intro m p h; exact absurd h (List.not_mem_nil p)
  | cons x xs ih =>
    intro m p hp
    rcases List.mem_cons.mp hp with hx | hxs
    · rcases key_mem_dictInsertSkip m x with ⟨q, hq⟩
      subst hx
      exact ⟨q, mem_foldl_insertSkip_mono xs (dictInsertSkip m p) (p.name, q) hq⟩
    · exact ih (dictInsertSkip m x) p hxs

/-- For every plug-in of the registered list, the folded dictionary holds a
registered plug-in of the same name. -/
theorem registered_name_mem_foldl (l : List PluginClass) :
    ∀ (m : PluginDict) (r : PluginClass), r ∈ l →
      ∃ q ∈ l, q.name = r.name ∧ (q.name, q) ∈ l.foldl dictInsertOverwrite m := by
  induction l with
  | nil => intro m r h; exact absurd h (List.not_mem_nil r)
  | cons x xs ih =>
    intro m r hr
    rcases List.mem_cons.mp hr with hx | hxs
    · by_cases hdup : ∃ r' ∈ xs, r'.name = x.name
      · rcases hdup with ⟨r', hr', hname⟩
        rcases ih (dictInsertOverwrite m x) r' hr' with ⟨q, hq, hqn, hqm⟩
        exact ⟨q, List.mem_cons_of_mem _ hq, by rw [hqn, hname, hx], hqm⟩
      · push_neg at hdup
        refine ⟨x, List.mem_cons_self .., by rw [hx], ?_⟩
        exact mem_foldl_insertOverwrite_of_ne xs (dictInsertOverwrite m x) x.name x
          (self_mem_dictInsertOverwrite m x) hdup
    · rcases ih (dictInsertOverwrite m x) r hxs with ⟨q, hq, hqn, hqm⟩
      exact ⟨q, List.mem_cons_of_mem _ hq, hqn, hqm⟩

/-- C2: `discover` returns the classes sorted by class name; every returned
class comes from a registered-path module (kept iff it has bases and some
transitive base carries the superclass's name — string comparison, not
identity) or from the explicitly registered plug-ins; and for every
explicitly registered plug-in the result contains a registered plug-in of
that name (on a name collision the explicit registration wins — the source
only prints a diagnostic and never raises). -/
theorem discover_spec (superName : String) (pathModules : List (List PluginClass))
    (registered : List PluginClass) :
    List.Pairwise (fun a b => a.name ≤ b.name)
        (discover superName pathModules registered) ∧
    (∀ p, p ∈ discover superName pathModules registered →
      p ∈ pathModules.flatMap (plugin_from_module superName) ∨ p ∈ registered) ∧
    (∀ (module : List PluginClass) (c : PluginClass),
      c ∈ plugin_from_module superName module ↔
        c ∈ module ∧ c.bases ≠ [] ∧ ∃ b ∈ recursiveBases c, b.name = superName) ∧
    (∀ r ∈ registered, ∃ q ∈ registered, q.name = r.name ∧
      q ∈ discover superName pathModules registered) ∧
    (∀ p ∈ pathModules.flatMap (plugin_from_module superName),
      (∀ r ∈ registered, r.name ≠ p.name) →
      ∃ q, q.name = p.name ∧ q ∈ pathModules.flatMap (plugin_from_module superName) ∧
        q ∈ discover superName pathModules registered) := by
  refine ⟨?_, ?_, ?_, ?_, ?_⟩
  · unfold discover
    have h := @List.sorted_mergeSort PluginClass
      (fun a b => decide (a.name ≤ b.name))
      (fun a b c hab hbc => by
        simp only [decide_eq_true_eq] at *
        exact le_trans hab hbc)
      (fun a b => by
        simp only [Bool.or_eq_true, decide_eq_true_eq]
        exact le_total a.name b.name)
      ((registered.foldl dictInsertOverwrite
        ((pathModules.flatMap (plugin_from_module superName)).foldl dictInsertSkip [])).map
          Prod.snd)
    exact h.imp (fun hab => by simpa using hab)
  · intro p hp
    unfold discover at hp
    have hperm := List.mergeSort_perm
      (((registered.foldl dictInsertOverwrite
        ((pathModules.flatMap (plugin_from_module superName)).foldl dictInsertSkip [])).map
          Prod.snd))
      (fun a b => a.name ≤ b.name)
    have hp2 := hperm.mem_iff.mp hp
    rcases List.mem_map.mp hp2 with ⟨kv, hkv, hsnd⟩
    rcases mem_foldl_insert dictInsertOverwrite mem_dictInsertOverwrite registered _ kv hkv with
      h1 | ⟨q, hq, hkvq⟩
    · rcases mem_foldl_insert dictInsertSkip mem_dictInsertSkip _ [] kv h1 with h2 | ⟨q, hq, hkvq⟩
      · exact absurd h2 (List.not_mem_nil kv)
      · left
        rw [← hsnd, hkvq]
        exact hq
    · right
      rw [← hsnd, hkvq]
      exact hq
  · intro module c
    unfold plugin_from_module
    simp only [List.mem_filter, Bool.and_eq_true, decide_eq_true_eq, List.any_eq_true, beq_iff_eq]
    constructor
    · rintro ⟨hm, hlen, b, hb, hn⟩
      exact ⟨hm, List.length_pos.mp hlen, b, hb, hn⟩
    · rintro ⟨hm, hne, b, hb, hn⟩
      exact ⟨hm, List.length_pos.mpr hne, b, hb, hn⟩
  · intro r hr
    rcases registered_name_mem_foldl registered
        ((pathModules.flatMap (plugin_from_module superName)).foldl dictInsertSkip []) r hr with
      ⟨q, hq, hqn, hqm⟩
    refine ⟨q, hq, hqn, ?_⟩
    unfold discover
    have hperm := List.mergeSort_perm
      (((registered.foldl dictInsertOverwrite
        ((pathModules.flatMap (plugin_from_module superName)).foldl dictInsertSkip [])).map
          Prod.snd))
      (fun a b => a.name ≤ b.name)
    exact hperm.mem_iff.mpr (List.mem_map.mpr ⟨(q.name, q), hqm, rfl⟩)
  · intro p hp hnoreg
    rcases key_mem_foldl_insertSkip
        (pathModules.flatMap (plugin_from_module superName)) [] p hp with ⟨q, hq⟩
    rcases mem_foldl_insert dictInsertSkip mem_dictInsertSkip
        (pathModules.flatMap (plugin_from_module superName)) [] (p.name, q) hq with
      h0 | ⟨x, hx, hxy⟩
    · exact absurd h0 (List.not_mem_nil _)
    · injection hxy with h1 h2
      have hq2 : (p.name, q) ∈ registered.foldl dictInsertOverwrite
          ((pathModules.flatMap (plugin_from_module superName)).foldl dictInsertSkip []) :=
        mem_foldl_insertOverwrite_of_ne registered _ p.name q hq
          (fun y hy => hnoreg y hy)
      refine ⟨q, ?_, ?_, ?_⟩
      · rw [h2]
        exact h1.symm
      · rw [h2]
        exact hx
      · unfold discover
        have hperm := List.mergeSort_perm
          (((registered.foldl dictInsertOverwrite
            ((pathModules.flatMap (plugin_from_module superName)).foldl dictInsertSkip [])).map
              Prod.snd))
          (fun a b => a.name ≤ b.name)
        exact hperm.mem_iff.mpr (List.mem_map.mpr ⟨(p.name, q), hq2, rfl⟩)

/-- Path-discovered plug-in for the C2 witness: class `A` deriving from a
class named `Creator`. -/
def c2PathPlugin : PluginClass := .mk "A" [.mk "Creator" []]

/-- Second path-discovered plug-in for the C2 witness: class `B`, whose
name no registered plug-in carries. -/
def c2PathPlugin2 : PluginClass := .mk "B" [.mk "Creator" []]

/-- Explicitly registered plug-in for the C2 witness: a different class also
named `A`. -/
def c2Registered : PluginClass := .mk "A" []

/-- Witness for C2: on a name collision between a path-discovered and an
explicitly registered plug-in, the result of `discover` contains the
registered one; and a path-discovered plug-in whose name is unregistered
appears in the result. -/
theorem discover_spec_witness :
    (∃ q ∈ [c2Registered], q.name = c2Registered.name ∧
      q ∈ discover "Creator" [[c2PathPlugin, c2PathPlugin2]] [c2Registered]) ∧
    (∃ q, q.name = c2PathPlugin2.name ∧
      q ∈ [[c2PathPlugin, c2PathPlugin2]].flatMap (plugin_from_module "Creator") ∧
      q ∈ discover "Creator" [[c2PathPlugin, c2PathPlugin2]] [c2Registered]) := by
  constructor
  · exact (discover_spec "Creator" [[c2PathPlugin, c2PathPlugin2]] [c2Registered]).2.2.2.1
      c2Registered (List.mem_singleton.mpr rfl)
  · refine (discover_spec "Creator" [[c2PathPlugin, c2PathPlugin2]] [c2Registered]).2.2.2.2
      c2PathPlugin2 ?_ ?_
    · refine List.mem_flatMap.mpr ⟨[c2PathPlugin, c2PathPlugin2], by simp, ?_⟩
      refine ((discover_spec "Creator" [[c2PathPlugin, c2PathPlugin2]] [c2Registered]).2.2.1
        [c2PathPlugin, c2PathPlugin2] c2PathPlugin2).mpr ⟨by simp, ?_, ?_⟩
      · rw [show c2PathPlugin2.bases = [.mk "Creator" []] from rfl]
        simp
      · exact ⟨.mk "Creator" [], mem_recursiveBases_of_mem_bases c2PathPlugin2 _
          (by rw [show c2PathPlugin2.bases = [.mk "Creator" []] from rfl]
              simp), rfl⟩
    · intro r hr
      rw [List.mem_singleton] at hr
      subst hr
      decide

/-- A Creator plug-in class as consumed by `HostContext.create`
(host_context.py:199-222): its declared `family` (pipeline.py:239), whether
`Plugin(name, asset, options, data)` succeeds (`initOk`), and the effect of
`plugin.process()` on the host selection state (`σ`), returning an instance
value (`ι`) or raising. -/
structure CreatorCls (σ ι : Type) where
  family : String
  initOk : Bool
  process : σ → Except PyErr (ι × σ)

/-- One iteration body of `HostContext.create` (host_context.py:210-218):
instantiate the plug-in, then run `plugin.process()` under
`self.registered_host.maintained_selection()`.  `registered_host` is the
instance attribute of that name — `some` when it holds a host module,
`none` when it is the `None` set in `__init__` (host_context.py:41), in
which case the attribute access `None.maintained_selection` raises
`AttributeError` inside the `try` and the creator is skipped.  When a host
is present, the scoped resource is modelled from the spec (host adapters
are not under `src/`; spec sections 5 and 6: selection is captured before
and restored after the block regardless of outcome), so each creator
observes the caller's selection state `s` and the selection after the
iteration is again `s`.  Any exception from the `try` block
(instantiation, acquisition or process) is logged and swallowed
(`continue`). -/
def runCreatorMaintained (registered_host : Option Unit) (s : σ) (c : CreatorCls σ ι) :
    Option ι :=
  if c.initOk then
    match registered_host with
    | none => none
    | some _ =>
      match c.process s with
      | .ok (inst, _) => some inst
      | .error _ => none
  else none

/-- Embedding of `HostContext.create` (host_context.py:171-222): iterate the
discovered Creators, skip those whose declared `family` differs, run each
matching one (collecting it into `plugins` on success, swallowing its
exception otherwise), then `assert plugins` and return the `instance` of the
last successful run.  `registered_host` is the value of the
`self.registered_host` instance attribute consulted at host_context.py:214;
in the source it is `None` (set at host_context.py:41 and never reassigned
— `register_host` writes `registered_root` instead, host_context.py:93), so
every iteration fails, see `create_registered_host_bug`.  The returned pair
carries the final selection state (restored to `s` by the
maintained-selection resource when a host is present). -/
def create (registered_host : Option Unit) (creators : List (CreatorCls σ ι))
    (family : String) (s : σ) : Except PyErr ι × σ :=
  let step := fun (acc : List (CreatorCls σ ι) × Option ι) (c : CreatorCls σ ι) =>
    if c.family == family then
      match runCreatorMaintained registered_host s c with
      | some inst => (acc.1 ++ [c], some inst)
      | none => acc
    else acc
  let r := creators.foldl step ([], none)
  match r.1, r.2 with
  | [], _ => (.error (.assertionError "No Creator plug-ins were run, this is a bug"), s)
  | _ :: _, some inst => (.ok inst, s)
  | _ :: _, none => (.error (.runtimeError "unreachable: plugins nonempty without instance"), s)

/-- Auxiliary: prepending a success to a success list shifts the
`getLast?`-with-default computation. -/
theorem getLast?_elim_cons (i : ι) (rest : List ι) (b : Option ι) :
    ((i :: rest).getLast?).elim b some = (rest.getLast?).elim (some i) some := by
  cases rest with
  | nil => rfl
  | cons x xs =>
    rw [List.getLast?_cons_cons]
    have h : ((x :: xs).getLast?).isSome := by
      rw [List.getLast?_isSome]
      simp
    rcases Option.isSome_iff_exists.mp h with ⟨y, hy⟩
    rw [hy]
    rfl

/-- Characterization of the fold inside `create`: the collected `plugins`
are the matching creators that ran successfully, and the running `instance`
is the last success (keeping the accumulator when there is none). -/
theorem create_foldl (rh : Option Unit) (family : String) (s : σ)
    (l : List (CreatorCls σ ι)) :
    ∀ acc : List (CreatorCls σ ι) × Option ι,
      l.foldl (fun acc c =>
        if c.family == family then
          match runCreatorMaintained rh s c with
          | some inst => (acc.1 ++ [c], some inst)
          | none => acc
        else acc) acc =
      (acc.1 ++ ((l.filter (fun c => c.family == family)).filter
          (fun c => (runCreatorMaintained rh s c).isSome)),
        (((l.filter (fun c => c.family == family)).filterMap
          (runCreatorMaintained rh s)).getLast?).elim acc.2 some) := by
  induction l with
  | nil => intro acc; simp
  | cons c l ih =>
    intro acc
    by_cases hf : (c.family == family) = true
    · have hfc : List.filter (fun x => x.family == family) (c :: l) =
          c :: List.filter (fun x => x.family == family) l := List.filter_cons_of_pos hf
      rcases hrun : runCreatorMaintained rh s c with _ | inst
      · have hsk : List.filter (fun x => (runCreatorMaintained rh s x).isSome)
            (c :: List.filter (fun x => x.family == family) l) =
            List.filter (fun x => (runCreatorMaintained rh s x).isSome)
              (List.filter (fun x => x.family == family) l) :=
          List.filter_cons_of_neg (by simp [hrun])
        have hfm : List.filterMap (runCreatorMaintained rh s)
            (c :: List.filter (fun x => x.family == family) l) =
            List.filterMap (runCreatorMaintained rh s)
              (List.filter (fun x => x.family == family) l) :=
          List.filterMap_cons_none hrun
        simp only [List.foldl_cons, if_pos hf, hrun]
        rw [ih acc, hfc, hsk, hfm]
      · have hke : List.filter (fun x => (runCreatorMaintained rh s x).isSome)
            (c :: List.filter (fun x => x.family == family) l) =
            c :: List.filter (fun x => (runCreatorMaintained rh s x).isSome)
              (List.filter (fun x => x.family == family) l) :=
          List.filter_cons_of_pos (by simp [hrun])
        have hfm : List.filterMap (runCreatorMaintained rh s)
            (c :: List.filter (fun x => x.family == family) l) =
            inst :: List.filterMap (runCreatorMaintained rh s)
              (List.filter (fun x => x.family == family) l) :=
          List.filterMap_cons_some hrun
        simp only [List.foldl_cons, if_pos hf, hrun]
        rw [ih (acc.1 ++ [c], some inst), hfc, hke, hfm, getLast?_elim_cons]
        simp
    · have hfc : List.filter (fun x => x.family == family) (c :: l) =
          List.filter (fun x => x.family == family) l := List.filter_cons_of_neg hf
      simp only [List.foldl_cons, if_neg hf]
      rw [ih acc, hfc]

/-- Characterization of `create` for an arbitrary `registered_host` slot:
it runs every family-matching Creator against the maintained selection
state, swallows individual failures, returns the last successful instance,
and fails with the assertion-class error on zero successes; the selection
state comes back unchanged. -/
theorem create_spec (rh : Option Unit) (creators : List (CreatorCls σ ι))
    (family : String) (s : σ) :
    create rh creators family s =
      (match ((creators.filter (fun c => c.family == family)).filterMap
          (runCreatorMaintained rh s)).getLast? with
        | some inst => .ok inst
        | none => .error (.assertionError "No Creator plug-ins were run, this is a bug"),
        s) := by
  unfold create
  dsimp only
  rw [create_foldl rh family s creators ([], none)]
  rcases hlast : ((creators.filter (fun c => c.family == family)).filterMap
      (runCreatorMaintained rh s)).getLast? with _ | inst
  · have hnil : (creators.filter (fun c => c.family == family)).filterMap
        (runCreatorMaintained rh s) = [] := by
      rwa [← List.getLast?_eq_none_iff]
    have hfnil : (creators.filter (fun c => c.family == family)).filter
        (fun c => (runCreatorMaintained rh s c).isSome) = [] := by
      rw [List.filter_eq_nil_iff]
      intro c hc
      have := List.filterMap_eq_nil_iff.mp hnil c hc
      simp [this]
    simp [hlast, hfnil]
  · have hne : ((creators.filter (fun c => c.family == family)).filterMap
        (runCreatorMaintained rh s)) ≠ [] := by
      intro h
      rw [h] at hlast
      simp at hlast
    have hfne : (creators.filter (fun c => c.family == family)).filter
        (fun c => (runCreatorMaintained rh s c).isSome) ≠ [] := by
      intro h
      apply hne
      rw [List.filterMap_eq_nil_iff]
      intro c hc
      have := List.filter_eq_nil_iff.mp h c hc
      simpa using this
    rcases hl : (creators.filter (fun c => c.family == family)).filter
        (fun c => (runCreatorMaintained rh s c).isSome) with _ | ⟨x, xs⟩
    · exact absurd hl hfne
    · rw [List.nil_append, hl, hlast]
      rfl

/-- An event callback as dispatched by `emit` (pipeline.py:816-841): running
it transforms some ambient state `σ` (its side effects) and possibly raises.
The subscription set holds only currently-live callbacks (the weak set drops
garbage-collected ones before dispatch). -/
structure EventCallback (σ : Type) where
  run : σ → σ × Option PyErr

/-- Embedding of `emit` (pipeline.py:816-841): every live callback is
invoked in turn; the `try`/`except` around each call logs and swallows its
exception (the second component of `run` is discarded), so `emit` is total —
no exception escapes it. -/
def emit (callbacks : List (EventCallback σ)) (s : σ) : σ :=
  callbacks.foldl (fun st callback => (callback.run st).1) s

/-- C8: dispatch is exception-isolated: when the callback `c` somewhere in
the subscription list raises (its run yields an exception `e`), `emit`
still invokes every callback after it, continuing from the state `c` left
behind, and returns normally (it is a total function into `σ`). -/
theorem emit_spec (l1 : List (EventCallback σ)) (c : EventCallback σ)
    (l2 : List (EventCallback σ)) (s : σ) (e : PyErr)
    (hraise : (c.run (emit l1 s)).2 = some e) :
    emit (l1 ++ c :: l2) s = emit l2 ((c.run (emit l1 s)).1) := by
  unfold emit
  rw [List.foldl_append]
  rfl

/-- The raising callback of the C8 witness: appends `1` to the log and
raises. -/
def c8Raiser : EventCallback (List Nat) :=
  { run := fun st => (st ++ [1], some (.runtimeError "boom")) }

/-- The well-behaved callback of the C8 witness: appends `2` to the log. -/
def c8Normal : EventCallback (List Nat) :=
  { run := fun st => (st ++ [2], none) }

/-- Witness for C8: with one raising and one normal callback subscribed,
the normal callback still executes (both log entries appear) and `emit`
returns normally. -/
theorem emit_spec_witness :
    emit ([] ++ c8Raiser :: [c8Normal]) [] = [1, 2] :=
  (emit_spec [] c8Raiser [c8Normal] [] (.runtimeError "boom") rfl).trans rfl

/-- A Python module as seen by signature validation (`_validate_signature`,
pipeline.py:892-948): its name and its callable members with their formal
parameter names (`inspect.getfullargspec(attr)[0]`). -/
structure PyModule where
  name : String
  members : List (String × List String)
deriving DecidableEq, Repr

/-- Embedding of `_validate_signature` (pipeline.py:892-948): every
signature member must exist on the module and expose at least the required
formal parameter names; all missing members and all signature mismatches
are collected into one combined `ValueError` report. -/
def _validate_signature (module : PyModule)
    (signatures : List (String × List String)) : Except PyErr Unit :=
  let missing := signatures.filter
    (fun sig => !(module.members.any (fun m => m.1 == sig.1)))
  let invalid := signatures.filter (fun sig =>
    match module.members.find? (fun m => m.1 == sig.1) with
    | none => false
    | some m => !(sig.2.all (fun p => m.2.contains p)))
  if missing.isEmpty && invalid.isEmpty then .ok ()
  else .error (.valueError ("Incomplete interface for module: " ++ module.name))

/-- Python dictionary indexing on the Session mapping
(`Session["AVALON_CONFIG"]`, pipeline.py:117).  The package-level `Session`
object is not under `src/`; it is modelled from the spec (section 3: a
mapping from string keys to string-or-None values), with `KeyError` on an
absent key as for any Python mapping. -/
def sessionGetItem (session : List (String × Option String)) (key : String) :
    Except PyErr (Option String) :=
  match session.find? (fun kv => kv.1 == key) with
  | none => .error .keyError
  | some kv => .ok kv.2

/-- Embedding of `find_config` (pipeline.py:114-123): read
`Session["AVALON_CONFIG"]`; a falsy value (`None` or the empty string)
raises `EnvironmentError`; otherwise the named module is imported
(`importlib.import_module`, modelled by the injected `importModule`). -/
def find_config (importModule : String → PyModule)
    (session : List (String × Option String)) : Except PyErr PyModule :=
  match sessionGetItem session "AVALON_CONFIG" with
  | .error e => .error e
  | .ok config =>
    if config.getD "" = "" then
      .error (.environmentError "No configuration found in the project nor environment")
    else
      .ok (importModule (config.getD ""))

/-- Embedding of `HostContext.cls_registered_config`
(host_context.py:45-57): when the class-level cache is empty, resolve the
configuration through `find_config`, validate its `install`/`uninstall`
signature and cache it; otherwise return the cached module untouched.
Returns the resolved module together with the new cache contents. -/
def cls_registered_config (importModule : String → PyModule)
    (session : List (String × Option String)) (cache : Option PyModule) :
    Except PyErr (PyModule × Option PyModule) :=
  match cache with
  | some config => .ok (config, some config)
  | none =>
    match find_config importModule session with
    | .error e => .error e
    | .ok config =>
      match _validate_signature config [("install", []), ("uninstall", [])] with
      | .error e => .error e
      | .ok _ => .ok (config, some config)

/-- Embedding of `HostContext.cls_deregistered_config`
(host_context.py:59-61): drop the cached configuration. -/
def cls_deregistered_config (_cache : Option PyModule) : Option PyModule :=
  none

/-- C9: `find_config` reads the `AVALON_CONFIG` session key and imports the
named module; a session without that key makes it fail fatally (the mapping
lookup's `KeyError` — the spec's environment-error class for missing
required session keys; a present-but-falsy value is the explicit
`EnvironmentError` branch); the resolved config is cached class-wide, so a
cached read returns the module without re-resolving (the session is not even
consulted), until `cls_deregistered_config` empties the cache. -/
theorem find_config_spec (importModule : String → PyModule) :
    (∀ session : List (String × Option String),
      session.find? (fun kv => kv.1 == "AVALON_CONFIG") = none →
      find_config importModule session = .error .keyError) ∧
    (∀ (session : List (String × Option String)) kv,
      session.find? (fun kv => kv.1 == "AVALON_CONFIG") = some kv →
      kv.2.getD "" = "" →
      find_config importModule session =
        .error (.environmentError "No configuration found in the project nor environment")) ∧
    (∀ (session : List (String × Option String)) (c : PyModule),
      cls_registered_config importModule session (some c) = .ok (c, some c)) ∧
    (∀ cache, cls_deregistered_config cache = none) := by
  refine ⟨?_, ?_, ?_, ?_⟩
  · intro session h
    unfold find_config sessionGetItem
    rw [h]
  · intro session kv h h2
    unfold find_config sessionGetItem
    rw [h]
    dsimp only
    rw [if_pos h2]
  · intro session c
    rfl
  · intro cache
    rfl

/-- Witness for C9: on the empty session `find_config` fails with the
key-lookup error, and a cached configuration is returned as-is. -/
theorem find_config_spec_witness :
    find_config (fun n => { name := n, members := [] }) [] = .error .keyError ∧
    cls_registered_config (fun n => { name := n, members := [] }) []
        (some { name := "cfg", members := [("install", []), ("uninstall", [])] }) =
      .ok ({ name := "cfg", members := [("install", []), ("uninstall", [])] },
           some { name := "cfg", members := [("install", []), ("uninstall", [])] }) :=
  ⟨(find_config_spec (fun n => { name := n, members := [] })).1 [] rfl,
   (find_config_spec (fun n => { name := n, members := [] })).2.2.1 []
     { name := "cfg", members := [("install", []), ("uninstall", [])] }⟩

/-- The single value slot `HostContext.registered_root` can hold: either a
host module (written by `register_host`, host_context.py:93) or a root
value (written by `register_root`, host_context.py:146). -/
inductive RegisteredRootVal where
  | hostVal (host : PyModule)
  | rootVal (root : String)
deriving DecidableEq, Repr

/-- The mutable `HostContext` instance state (host_context.py:35-43).
`registered_host_attr` is the instance attribute `self.registered_host`
set to `None` in `__init__` (it shadows the method of the same name and is
never reassigned); both `register_host` and `register_root` write the
`registered_root` field. -/
structure HostContextState where
  registered_plugins : List (String × List PluginClass) := []
  registered_plugin_paths : List (String × List String) := []
  registered_root : Option RegisteredRootVal := none
  registered_host_attr : Option PyModule := none

/-- Embedding of `HostContext.register_host` (host_context.py:78-93):
validate the host's `ls` signature, then `self.registered_root = host`. -/
def register_host (host : PyModule) (st : HostContextState) :
    Except PyErr HostContextState :=
  match _validate_signature host [("ls", [])] with
  | .error e => .error e
  | .ok _ => .ok { st with registered_root := some (.hostVal host) }

/-- Embedding of the `HostContext.registered_host` method
(host_context.py:95-97): it returns `self.registered_root`. -/
def registered_host (st : HostContextState) : Option RegisteredRootVal :=
  st.registered_root

/-- Embedding of `HostContext.deregister_host` (host_context.py:99-100):
`self.registered_root = None`. -/
def deregister_host (st : HostContextState) : HostContextState :=
  { st with registered_root := none }

/-- Embedding of `HostContext.register_root` (host_context.py:143-146):
`self.registered_root = root`. -/
def register_root (root : String) (st : HostContextState) : HostContextState :=
  { st with registered_root := some (.rootVal root) }

/-- C10: `register_host` and `register_root` write the same
`registered_root` field, so host and root are not independent state: a
successful `register_host host` stores the host in `registered_root`;
calling `register_root root` afterwards makes `registered_host()` return
the root (the host registration is lost); and `deregister_host()` clears
the value just set by `register_root`. -/
theorem register_host_root_alias (host : PyModule) (root : String)
    (st st' : HostContextState) (hreg : register_host host st = .ok st') :
    st'.registered_root = some (.hostVal host) ∧
    registered_host (register_root root st') = some (.rootVal root) ∧
    (deregister_host (register_root root st')).registered_root = none := by
  unfold register_host at hreg
  rcases hval : _validate_signature host [("ls", [])] with e | u
  · rw [hval] at hreg
    exact absurd hreg (by simp)
  · rw [hval] at hreg
    injection hreg with hreg
    refine ⟨?_, rfl, rfl⟩
    rw [← hreg]

/-- The host module of the C10 witness: it exposes `ls`, so signature
validation succeeds. -/
def c10Host : PyModule := { name := "defaultHost", members := [("ls", [])] }

/-- The state after `register_host c10Host` on a fresh `HostContext`. -/
def c10State : HostContextState := { registered_root := some (.hostVal c10Host) }

/-- Witness for C10: registering the host then a root makes
`registered_host()` return the root, and `deregister_host` clears it. -/
theorem register_host_root_alias_witness :
    registered_host (register_root "/projects" c10State) = some (.rootVal "/projects") ∧
    (deregister_host (register_root "/projects" c10State)).registered_root = none :=
  (register_host_root_alias c10Host "/projects" {} c10State rfl).2

/-- With an empty `registered_host` slot every creator iteration fails (the
`AttributeError` on `None.maintained_selection` is swallowed by the
`try`). -/
theorem runCreatorMaintained_none (s : σ) (c : CreatorCls σ ι) :
    runCreatorMaintained none s c = none := by
  unfold runCreatorMaintained
  split <;> rfl

/-- C3 (code bug): the claim (and spec section 4.5) says every
family-matching Creator is instantiated and run inside the host's
maintained-selection scoped resource, with only a zero-success call failing
the assert — but the host is acquired through the `self.registered_host`
instance attribute (host_context.py:214), which `__init__` sets to `None`
(host_context.py:41) and which nothing in the source ever reassigns:
`register_host` writes `self.registered_root` instead (host_context.py:93,
the aliasing proved for C10), and it leaves `registered_host_attr`
untouched.  So `None.maintained_selection` raises `AttributeError` inside
every iteration's `try`, no creator ever runs its `process`, and `create`
always fails with the assertion-class error — the claimed success path is
unreachable. -/
theorem create_registered_host_bug :
    (∀ (creators : List (CreatorCls σ ι)) (family : String) (s : σ),
      create none creators family s =
        (.error (.assertionError "No Creator plug-ins were run, this is a bug"), s)) ∧
    (({} : HostContextState).registered_host_attr = none) ∧
    (∀ (host : PyModule) (st : HostContextState),
      Except.map HostContextState.registered_host_attr (register_host host st) =
        Except.map (fun _ => st.registered_host_attr) (register_host host st)) := by
  refine ⟨?_, rfl, ?_⟩
  · intro creators family s
    rw [create_spec none creators family s]
    have h : (creators.filter (fun c => c.family == family)).filterMap
        (runCreatorMaintained none s) = [] := by
      rw [List.filterMap_eq_nil_iff]
      intro c _
      exact runCreatorMaintained_none s c
    rw [h]
    rfl
  · intro host st
    unfold register_host
    rcases _validate_signature host [("ls", [])] with e | u <;> rfl

/-- Python `str(...)` of an optional value when formatted into a template:
`None` renders as the string `None`. -/
def pyStrOfOpt (o : Option String) : String :=
  o.getD "None"

/-- Python `str.replace` on character lists: non-overlapping replacement,
left to right.  The fuel is the input length; every step consumes at least
one character, so the zero-fuel case is never reached from `pyReplace`. -/
def replaceGo (pat repl : List Char) : Nat → List Char → List Char
  | 0, cs => cs
  | _ + 1, [] => []
  | fuel + 1, c :: rest =>
    if pat.isPrefixOf (c :: rest) then
      repl ++ replaceGo pat repl fuel ((c :: rest).drop pat.length)
    else c :: replaceGo pat repl fuel rest

/-- Python `s.replace(pat, repl)` (for the non-empty patterns the source
uses). -/
def pyReplace (s pat repl : String) : String :=
  if pat.data = [] then s else ⟨replaceGo pat.data repl.data s.data.length s.data⟩

/-- Python `template.format(**data)` for the brace syntax the source's
templates use: `\x7bkey\x7d` and `\x7bkey:spec\x7d` fields (the format
specification after `:` is modelled as plain substitution — no claim
exercises padding), `\x7b\x7b`/`\x7d\x7d` escapes, `KeyError` on a missing
key and `ValueError` on an unbalanced brace.  Fueled by the input length
(each step consumes at least one character), so the zero-fuel case is never
reached from `pyFormat`. -/
def pyFormatGo (data : List (String × String)) : Nat → List Char → Except PyErr (List Char)
  | 0, _ => .error (.valueError "format: out of fuel")
  | _ + 1, [] => .ok []
  | fuel + 1, '\x7b' :: '\x7b' :: rest =>
    match pyFormatGo data fuel rest with
    | .error e => .error e
    | .ok tail => .ok ('\x7b' :: tail)
  | fuel + 1, '\x7b' :: rest =>
    let field := rest.takeWhile (fun c => c ≠ '\x7d')
    if field.length = rest.length then .error (.valueError "Single brace in template")
    else
      let key : String := ⟨field.takeWhile (fun c => c ≠ ':')⟩
      match data.find? (fun kv => kv.1 == key) with
      | none => .error .keyError
      | some kv =>
        match pyFormatGo data fuel (rest.drop (field.length + 1)) with
        | .error e => .error e
        | .ok tail => .ok (kv.2.data ++ tail)
  | fuel + 1, '\x7d' :: '\x7d' :: rest =>
    match pyFormatGo data fuel rest with
    | .error e => .error e
    | .ok tail => .ok ('\x7d' :: tail)
  | _ + 1, '\x7d' :: _ => .error (.valueError "Single brace in template")
  | fuel + 1, c :: rest =>
    match pyFormatGo data fuel rest with
    | .error e => .error e
    | .ok tail => .ok (c :: tail)

/-- Python `template.format(**data)` with `data` an association list. -/
def pyFormat (data : List (String × String)) (template : String) : Except PyErr String :=
  match pyFormatGo data (template.data.length + 1) template.data with
  | .error e => .error e
  | .ok cs => .ok ⟨cs⟩

/-- The optional-group scan of `format_template_with_optional_keys`
(pipeline.py:1408-1410): `re.findall` with the pattern
`(<.*?[^\x7b0]*>)[^0-9]*?`, modelled as every block from a `<` to the first
following `>` (faithful for the source's templates, whose optional groups
contain a single `>`).  Fueled by the input length. -/
def optGroupsGo : Nat → List Char → List (List Char)
  | 0, _ => []
  | _ + 1, [] => []
  | fuel + 1, '<' :: rest =>
    let inner := rest.takeWhile (fun c => c ≠ '>')
    if inner.length = rest.length then []
    else ('<' :: (inner ++ ['>'])) :: optGroupsGo fuel (rest.drop (inner.length + 1))
  | fuel + 1, _ :: rest => optGroupsGo fuel rest

/-- The optional `<...>` groups of a template, in order. -/
def optGroups (template : String) : List (List Char) :=
  optGroupsGo template.data.length template.data

/-- The first loop of `format_template_with_optional_keys`
(pipeline.py:1410-1414): an optional group whose own formatting raises
`KeyError` is collected for removal; any other formatting error propagates
(the `try` catches `KeyError` only). -/
def invalidOptionals (data : List (String × String)) :
    List (List Char) → Except PyErr (List (List Char))
  | [] => .ok []
  | g :: gs =>
    match pyFormatGo data (g.length + 1) g with
    | .error .keyError =>
      match invalidOptionals data gs with
      | .error e => .error e
      | .ok r => .ok (g :: r)
    | .error e => .error e
    | .ok _ => invalidOptionals data gs

/-- Embedding of `format_template_with_optional_keys`
(pipeline.py:1406-1428): drop optional groups whose keys are unavailable,
format the remaining template (a missing non-optional key raises
`KeyError`), then strip the `<`/`>` markers and collapse `..` to `.`. -/
def format_template_with_optional_keys (data : List (String × String))
    (template : String) : Except PyErr String :=
  match invalidOptionals data (optGroups template) with
  | .error e => .error e
  | .ok invalid =>
    let template := invalid.foldl (fun t g => pyReplace t ⟨g⟩ "") template
    match pyFormat data template with
    | .error e => .error e
    | .ok work_file =>
      .ok (pyReplace (pyReplace (pyReplace work_file "<" "") ">" "") ".." ".")

/-- Index of the last occurrence of a character. -/
def lastIdxOf (cs : List Char) (c : Char) : Option Nat :=
  match cs.reverse.findIdx? (fun x => x == c) with
  | none => none
  | some j => some (cs.length - 1 - j)

/-- Python `os.path.splitext` (POSIX): split at the last dot, unless every
character between the last separator and that dot is itself a dot. -/
def splitext (p : String) : String × String :=
  let cs := p.data
  match lastIdxOf cs '.' with
  | none => (p, "")
  | some d =>
    let start := match lastIdxOf cs '/' with
      | none => 0
      | some s2 => s2 + 1
    if ((cs.drop start).take (d - start)).any (fun c => c ≠ '.') then
      (⟨cs.take d⟩, ⟨cs.drop d⟩)
    else (p, "")

/-- Python `os.path.split` (POSIX): split after the last separator; the
head keeps a trailing slash only when it is all slashes. -/
def ossplit (p : String) : String × String :=
  let cs := p.data
  match lastIdxOf cs '/' with
  | none => ("", p)
  | some idx =>
    let head := cs.take (idx + 1)
    let tail := cs.drop (idx + 1)
    let head := if head.any (fun c => c ≠ '/') then
        (head.reverse.dropWhile (fun c => c == '/')).reverse
      else head
    (⟨head⟩, ⟨tail⟩)

/-- The filesystem collaborator of `get_representation_path` and
`last_workfile_with_version`: `os.path.exists`, `os.listdir` and
`os.path.normpath` (all standard library, injected as parameters). -/
structure FS where
  pathExists : String → Bool
  listdir : String → List String
  normpath : String → String

/-- Python dictionary assignment `d[key] = value` on an association list
(`context["root"] = root`, pipeline.py:1462). -/
def dictSet (d : List (String × String)) (key value : String) :
    List (String × String) :=
  if d.any (fun kv => kv.1 == key) then
    d.map (fun kv => if kv.1 == key then (kv.1, value) else kv)
  else d ++ [(key, value)]

/-- Tier 1 of `get_representation_path`, `path_from_represenation`
(pipeline.py:1454-1474): format the representation's own stored template
against its stored context plus the root; a missing `data.template` or
`context` key or a `KeyError` while formatting makes the tier inapplicable
(`None`); an empty formatted path is returned as-is (`if not path: return
path`); otherwise the normalized path if it exists on disk, else the raw
formatted string. -/
def path_from_represenation (fs : FS) (representation : ReprDoc)
    (root : String) : Except PyErr (Option String) :=
  match representation.dataTemplate with
  | none => .ok none
  | some template =>
    match representation.context with
    | none => .ok none
    | some context =>
      let context := dictSet context "root" root
      match format_template_with_optional_keys context template with
      | .error .keyError => .ok none
      | .error e => .error e
      | .ok path =>
        if path = "" then .ok (some path)
        else
          let normalized_path := fs.normpath path
          if fs.pathExists normalized_path then .ok (some normalized_path)
          else .ok (some path)

/-- Tier 2 of `get_representation_path`, `path_from_config`
(pipeline.py:1476-1531): fetch the parenthood chain (a `ValueError` from
the database makes the tier inapplicable), read the project's publish
template (missing key: inapplicable), assemble the data mapping (hierarchy
from the asset's stored hierarchy, else joined parents; session user, app
and task are passed in resolved), format (missing key: inapplicable), and
return the normalized path if it exists, else the raw string. -/
def path_from_config (fs : FS)
    (parenthood : ReprDoc → Option (VersionDoc × SubsetDoc × AssetDoc × ProjectDoc))
    (sessionUser sessionApp sessionTask : String)
    (representation : ReprDoc) (root : String) : Except PyErr (Option String) :=
  match parenthood representation with
  | none => .ok none
  | some (version_, subset, asset, project) =>
    match project.configTemplatePublish with
    | none => .ok none
    | some template =>
      let hierarchy : Option String :=
        match asset.dataHierarchy with
        | some h => some h
        | none => asset.dataParents.map (fun parents => String.intercalate "/" parents)
      let data : List (String × String) := [
        ("root", root),
        ("project[name]", project.name),
        ("project[code]", pyStrOfOpt project.dataCode),
        ("asset", asset.name),
        ("silo", pyStrOfOpt asset.silo),
        ("hierarchy", pyStrOfOpt hierarchy),
        ("subset", subset.name),
        ("version", version_.name),
        ("representation", representation.name),
        ("family", pyStrOfOpt (((representation.context.getD []).find?
          (fun kv => kv.1 == "family")).map Prod.snd)),
        ("user", sessionUser),
        ("app", sessionApp),
        ("task", sessionTask)
      ]
      match format_template_with_optional_keys data template with
      | .error .keyError => .ok none
      | .error e => .error e
      | .ok path =>
        let normalized_path := fs.normpath path
        if fs.pathExists normalized_path then .ok (some normalized_path)
        else .ok (some path)

/-- Tier 3 of `get_representation_path`, `path_from_data`
(pipeline.py:1533-1559): the stored literal path if it exists; otherwise,
when the stored name carries a `#`-padding or `%`-sequence pattern and the
containing directory holds a file sharing the literal prefix and extension,
the (normalized) literal path; else `None`.  No exception can escape this
tier. -/
def path_from_data (fs : FS) (representation : ReprDoc) : Option String :=
  match representation.dataPath with
  | none => none
  | some path =>
    if fs.pathExists path then some (fs.normpath path)
    else
      let split := ossplit path
      if !(fs.pathExists split.1) then none
      else
        let se := splitext split.2
        let file_name_items : List String :=
          if se.1.contains '#' then (se.1.splitOn "#").filter (fun part => part ≠ "")
          else if se.1.contains '%' then se.1.splitOn "%"
          else []
        match file_name_items with
        | [] => none
        | filename_start :: _ =>
          if (fs.listdir split.1).any (fun f =>
              filename_start.data.isPrefixOf f.data && se.2.data.isSuffixOf f.data) then
            some (fs.normpath path)
          else none

/-- Embedding of `get_representation_path` (pipeline.py:1431-1565): the
three tiers combined by Python's short-circuiting
`path_from_represenation() or path_from_config() or path_from_data()` —
a tier's value is kept only when truthy (neither `None` nor the empty
string), and the last tier's value is returned outright when the first two
are falsy. -/
def get_representation_path (fs : FS)
    (parenthood : ReprDoc → Option (VersionDoc × SubsetDoc × AssetDoc × ProjectDoc))
    (sessionUser sessionApp sessionTask : String)
    (representation : ReprDoc) (root : String) : Except PyErr (Option String) :=
  match path_from_represenation fs representation root with
  | .error e => .error e
  | .ok t1 =>
    if t1.getD "" ≠ "" then .ok t1
    else
      match path_from_config fs parenthood sessionUser sessionApp sessionTask
          representation root with
      | .error e => .error e
      | .ok t2 =>
        if t2.getD "" ≠ "" then .ok t2
        else .ok (path_from_data fs representation)

/-- Filesystem of the C5 counterexample: only `/published/file.ma` exists. -/
def c5Fs : FS :=
  { pathExists := fun p => p == "/published/file.ma",
    listdir := fun _ => [],
    normpath := fun p => p }

/-- Representation of the C5 counterexample: its stored template is the
empty string (so tier 1 formats to `""`, a non-`None` result), and its
stored literal path exists. -/
def c5Repr : ReprDoc :=
  { name := "ma", dataTemplate := some "", context := some [],
    dataPath := some "/published/file.ma" }

/-- Counterexample for C5 as stated: tier 1 returns the non-`None` result
`""`, yet `get_representation_path` does not return it — Python's `or`
chain skips falsy (empty-string) tier results and the function returns the
tier-3 path instead. -/
theorem get_representation_path_counterexample :
    path_from_represenation c5Fs c5Repr "R" = .ok (some "") ∧
    get_representation_path c5Fs (fun _ => none) "u" "a" "t" c5Repr "R" =
      .ok (some "/published/file.ma") ∧
    (some "" : Option String) ≠ some "/published/file.ma" := by
  refine ⟨rfl, rfl, by decide⟩

/-- C5 (amended): `get_representation_path` tries the three tiers in strict
order and returns the first tier's truthy (non-`None`, non-empty) result;
a tier returning the empty string is skipped like an inapplicable one; a
missing template-data key makes the template tier inapplicable (it returns
`None` rather than raising); and when the first two tiers are falsy the
result is exactly the third tier's value — `None` when all three are
inapplicable. -/
theorem get_representation_path_spec (fs : FS)
    (parenthood : ReprDoc → Option (VersionDoc × SubsetDoc × AssetDoc × ProjectDoc))
    (su sa stk : String) (r : ReprDoc) (root : String) :
    (∀ s, path_from_represenation fs r root = .ok (some s) → s ≠ "" →
      get_representation_path fs parenthood su sa stk r root = .ok (some s)) ∧
    (∀ t1 s, path_from_represenation fs r root = .ok t1 → t1.getD "" = "" →
      path_from_config fs parenthood su sa stk r root = .ok (some s) → s ≠ "" →
      get_representation_path fs parenthood su sa stk r root = .ok (some s)) ∧
    (∀ t1 t2, path_from_represenation fs r root = .ok t1 → t1.getD "" = "" →
      path_from_config fs parenthood su sa stk r root = .ok t2 → t2.getD "" = "" →
      get_representation_path fs parenthood su sa stk r root =
        .ok (path_from_data fs r)) ∧
    (∀ template context', r.dataTemplate = some template → r.context = some context' →
      format_template_with_optional_keys (dictSet context' "root" root) template =
        .error .keyError →
      path_from_represenation fs r root = .ok none) := by
  refine ⟨?_, ?_, ?_, ?_⟩
  · intro s h hne
    unfold get_representation_path
    rw [h]
    dsimp only
    rw [if_pos (by simpa using hne)]
  · intro t1 s h1 hf1 h2 hne
    unfold get_representation_path
    rw [h1]
    dsimp only
    rw [if_neg (by simpa using hf1), h2]
    dsimp only
    rw [if_pos (by simpa using hne)]
  · intro t1 t2 h1 hf1 h2 hf2
    unfold get_representation_path
    rw [h1]
    dsimp only
    rw [if_neg (by simpa using hf1), h2]
    dsimp only
    rw [if_neg (by simpa using hf2)]
  · intro template context' ht hc hfmt
    unfold path_from_represenation
    rw [ht, hc]
    dsimp only
    rw [hfmt]

/-- Representation of the C5 witness: a brace-free template, so tier 1
formats it verbatim; the file does not exist, so the raw string comes
back. -/
def c5bRepr : ReprDoc :=
  { name := "ma", dataTemplate := some "/path/file.ma", context := some [] }

/-- Filesystem of the C5 witness: nothing exists. -/
def c5bFs : FS :=
  { pathExists := fun _ => false, listdir := fun _ => [], normpath := fun p => p }

/-- Witness for the amended C5: a truthy tier-1 result is returned as the
overall result. -/
theorem get_representation_path_spec_witness :
    get_representation_path c5bFs (fun _ => none) "u" "a" "t" c5bRepr "R" =
      .ok (some "/path/file.ma") :=
  (get_representation_path_spec c5bFs (fun _ => none) "u" "a" "t" c5bRepr "R").1
    "/path/file.ma" rfl (by decide)

/-- Code-point comparison of character lists, Python's string ordering. -/
def strListLe : List Char → List Char → Bool
  | [], _ => true
  | _ :: _, [] => false
  | a :: as, b :: bs =>
    if a.toNat < b.toNat then true
    else if b.toNat < a.toNat then false
    else strListLe as bs

/-- Python's `s1 <= s2` on strings (code-point lexicographic order). -/
def pyStrLe (a b : String) : Bool :=
  strListLe a.data b.data

/-- Stable insertion into a sorted list (equal strings are identical, so
stability is moot); helper of `pySorted`. -/
def insertStr (a : String) : List String → List String
  | [] => [a]
  | b :: l => if pyStrLe a b then a :: b :: l else b :: insertStr a l

/-- Python's `sorted(...)` on strings, as used by
`for filename in sorted(filenames)` (pipeline.py:1687). -/
def pySorted : List String → List String
  | [] => []
  | a :: l => insertStr a (pySorted l)

/-- The `re.sub("<.*?>", ".*?", file_template)` step (pipeline.py:1656):
every non-greedy `<...>` block (up to the first `>`) becomes `.*?`.
Fueled by the input length. -/
def subAngleGo : Nat → List Char → List Char
  | 0, cs => cs
  | _ + 1, [] => []
  | fuel + 1, '<' :: rest =>
    let inner := rest.takeWhile (fun c => c ≠ '>')
    if inner.length = rest.length then '<' :: rest
    else '.' :: '*' :: '?' :: subAngleGo fuel (rest.drop (inner.length + 1))
  | fuel + 1, c :: rest => c :: subAngleGo fuel rest

/-- The `re.sub("\x7bversion.*\x7d", "([0-9]+)", file_template)` step
(pipeline.py:1657).  The `.*` is greedy, so the match runs from the first
`\x7bversion` to the *last* closing brace of the template — in templates
like `..._\x7bversion:0>3\x7d<_\x7bcomment\x7d>.\x7bext\x7d` it swallows
everything up to and including the trailing `\x7bext\x7d` field.  After the
replacement no brace remains, so no second match is possible. -/
def subVersionGo : Nat → List Char → List Char
  | 0, cs => cs
  | _ + 1, [] => []
  | fuel + 1, c :: rest =>
    if "\x7bversion".data.isPrefixOf (c :: rest) then
      let after := (c :: rest).drop 8
      match lastIdxOf after '\x7d' with
      | some j => "([0-9]+)".data ++ after.drop (j + 1)
      | none => c :: rest
    else c :: subVersionGo fuel rest

/-- The `re.sub("\x7bcomment.*?\x7d", ".+?", file_template)` step
(pipeline.py:1658): non-greedy, from each `\x7bcomment` to the first
closing brace. -/
def subCommentGo : Nat → List Char → List Char
  | 0, cs => cs
  | _ + 1, [] => []
  | fuel + 1, c :: rest =>
    if "\x7bcomment".data.isPrefixOf (c :: rest) then
      let after := (c :: rest).drop 8
      let inner := after.takeWhile (fun x => x ≠ '\x7d')
      if inner.length = after.length then c :: rest
      else '.' :: '+' :: '?' :: subCommentGo fuel (after.drop (inner.length + 1))
    else c :: subCommentGo fuel rest

/-- The three template substitutions of `last_workfile_with_version`
(pipeline.py:1654-1658) in source order. -/
def buildWorkfileTemplate (file_template : String) : String :=
  let t1 := subAngleGo file_template.data.length file_template.data
  let t2 := subVersionGo t1.length t1
  ⟨subCommentGo t2.length t2⟩

/-- A token of the regex fragment the source's generated patterns use:
literal characters (also via `\` escapes), `.` (any character), the
non-greedy `.*?` and `.+?`, the single version capture group `([0-9]+)`,
and the non-capturing extension alternation `(?:...|...)` over literal
alternatives. -/
inductive RTok where
  | lit (c : Char)
  | dot
  | anyStar
  | anyPlus
  | vgroup
  | alts (alternatives : List (List Char))
deriving DecidableEq, Repr

/-- Parse one alternative of a `(?:...)` group: a literal string with `\`
escapes (the source only ever puts escaped-dot extensions there). -/
def parseAlt : List Char → Option (List Char)
  | [] => some []
  | '\\' :: c :: rest => (parseAlt rest).map (fun r => c :: r)
  | '\\' :: [] => none
  | c :: rest =>
    if c ∈ ['.', '*', '+', '?', '(', ')', '[', ']', '|', '^', '$'] then none
    else (parseAlt rest).map (fun r => c :: r)

/-- Split a character list on a separator character. -/
def splitOnChar (cs : List Char) (sep : Char) : List (List Char) :=
  cs.foldr (fun c acc =>
    if c = sep then [] :: acc
    else match acc with
      | [] => [[c]]
      | g :: gs => (c :: g) :: gs) [[]]

/-- Parse every alternative of a `(?:...)` body. -/
def parseAlts : List (List Char) → Option (List (List Char))
  | [] => some []
  | a :: rest =>
    match parseAlt a, parseAlts rest with
    | some a', some r => some (a' :: r)
    | _, _ => none

/-- Parse the generated pattern body (between the `^` and `$` anchors the
source adds) into tokens; `none` on any construct outside the modelled
fragment (`regexUnsupported` — the source's patterns stay inside it).
Fueled by the input length. -/
def parseRegexGo : Nat → List Char → Option (List RTok)
  | 0, _ => none
  | _ + 1, [] => some []
  | fuel + 1, '\\' :: c :: rest => (parseRegexGo fuel rest).map (fun r => RTok.lit c :: r)
  | _ + 1, '\\' :: [] => none
  | fuel + 1, '.' :: '*' :: '?' :: rest => (parseRegexGo fuel rest).map (fun r => .anyStar :: r)
  | fuel + 1, '.' :: '+' :: '?' :: rest => (parseRegexGo fuel rest).map (fun r => .anyPlus :: r)
  | _ + 1, '.' :: '*' :: _ => none
  | _ + 1, '.' :: '+' :: _ => none
  | fuel + 1, '.' :: rest => (parseRegexGo fuel rest).map (fun r => .dot :: r)
  | fuel + 1, '(' :: rest =>
    if "[0-9]+)".data.isPrefixOf rest then
      (parseRegexGo fuel (rest.drop 7)).map (fun r => .vgroup :: r)
    else if "?:".data.isPrefixOf rest then
      let body := (rest.drop 2).takeWhile (fun c => c ≠ ')')
      if body.length = (rest.drop 2).length then none
      else if body.contains '(' then none
      else
        match parseAlts (splitOnChar body '|') with
        | none => none
        | some alternatives =>
          (parseRegexGo fuel ((rest.drop 2).drop (body.length + 1))).map
            (fun r => .alts alternatives :: r)
    else none
  | fuel + 1, c :: rest =>
    if c ∈ [')', '[', ']', '*', '+', '?', '|', '^', '$', '\x7b', '\x7d'] then none
    else (parseRegexGo fuel rest).map (fun r => RTok.lit c :: r)

mutual

/-- Backtracking matcher for the token fragment, anchored at both ends
(the source wraps the pattern in `^...$` and uses `re.match`).  Returns
`none` on no match, `some none` on a match without a version capture (the
source would then crash on `match.group(1)` with `IndexError`), and
`some (some digits)` on a match capturing the version digits.  `.*?`/`.+?`
are lazy, `([0-9]+)` is greedy with backtracking, alternatives are tried
left to right.  Fueled; `fuelFor` dominates the backtracking depth. -/
def mtchF : Nat → List RTok → List Char → Option (Option String)
  | 0, _, _ => none
  | _ + 1, [], [] => some none
  | _ + 1, [], _ :: _ => none
  | fuel + 1, t :: ts, s =>
    match t with
    | .lit c =>
      match s with
      | [] => none
      | c' :: s' => if c' = c then mtchF fuel ts s' else none
    | .dot =>
      match s with
      | [] => none
      | _ :: s' => mtchF fuel ts s'
    | .anyStar =>
      match mtchF fuel ts s with
      | some r => some r
      | none =>
        match s with
        | [] => none
        | _ :: s' => mtchF fuel (.anyStar :: ts) s'
    | .anyPlus =>
      match s with
      | [] => none
      | _ :: s' => mtchF fuel (.anyStar :: ts) s'
    | .vgroup => tryGroupF fuel ts s (s.takeWhile (fun c => c.isDigit)).length
    | .alts alternatives => tryAltsF fuel alternatives ts s

/-- Greedy `([0-9]+)` helper: try capture lengths from the longest digit
run down to one. -/
def tryGroupF : Nat → List RTok → List Char → Nat → Option (Option String)
  | 0, _, _, _ => none
  | _ + 1, _, _, 0 => none
  | fuel + 1, ts, s, k + 1 =>
    match mtchF fuel ts (s.drop (k + 1)) with
    | some _ => some (some ⟨s.take (k + 1)⟩)
    | none => tryGroupF fuel ts s k

/-- Alternation helper: try each alternative in order as a literal prefix. -/
def tryAltsF : Nat → List (List Char) → List RTok → List Char → Option (Option String)
  | 0, _, _, _ => none
  | _ + 1, [], _, _ => none
  | fuel + 1, a :: rest, ts, s =>
    if a.isPrefixOf s then
      match mtchF fuel ts (s.drop a.length) with
      | some r => some r
      | none => tryAltsF fuel rest ts s
    else tryAltsF fuel rest ts s

end

/-- Size of a token, for the fuel bound. -/
def rtokSize : RTok → Nat
  | .alts alternatives => 1 + alternatives.length + (alternatives.map List.length).sum
  | _ => 1

/-- Fuel dominating the backtracking depth of `mtchF` (the recursion
measure is lexicographic in remaining input, remaining tokens and the
helper counters, each bounded by the factors below). -/
def fuelFor (toks : List RTok) (s : List Char) : Nat :=
  (s.length + 2) * ((toks.map rtokSize).sum + 2) * (s.length + 2)

/-- `re.match(file_template, filename)` against the anchored pattern, with
the version capture (pipeline.py:1688-1690). -/
def reMatchVersion (toks : List RTok) (s : String) : Option (Option String) :=
  mtchF (fuelFor toks s.data) toks s.data

/-- `int(...)` of the captured digit run. -/
def digitsToNat (cs : List Char) : Nat :=
  cs.foldl (fun n c => n * 10 + (c.toNat - '0'.toNat)) 0

/-- The selection loop of `last_workfile_with_version`
(pipeline.py:1685-1694): iterate the sorted filenames; on a match, keep the
parsed version and filename whenever `file_version >= version`; a match
without a version group would raise `IndexError` on `match.group(1)`. -/
def lastWorkfileLoop (toks : List RTok) :
    List String → Option String × Option Nat → Except PyErr (Option String × Option Nat)
  | [], acc => .ok acc
  | filename :: rest, (output_filename, version) =>
    match reMatchVersion toks filename with
    | none => lastWorkfileLoop toks rest (output_filename, version)
    | some none => .error .indexError
    | some (some vstr) =>
      let file_version := digitsToNat vstr.data
      match version with
      | none => lastWorkfileLoop toks rest (some filename, some file_version)
      | some v =>
        if file_version ≥ v then lastWorkfileLoop toks rest (some filename, some file_version)
        else lastWorkfileLoop toks rest (output_filename, version)

/-- The extension alternation appended to the partially filled template
(pipeline.py:1664-1674): each extension gets a leading dot if needed and an
escaped dot, joined with `|` inside `(?:...)`. -/
def buildWorkfilePattern (partially_filled : String) (extensions : List String) : String :=
  let _ext := extensions.map (fun ext =>
    let ext2 := match ext.data with
      | '.' :: _ => ext
      | _ => "." ++ ext
    "\\" ++ ext2)
  partially_filled ++ "(?:" ++ String.intercalate "|" _ext ++ ")"

/-- The extension pre-filter and sort of `last_workfile_with_version`
(pipeline.py:1648-1652, 1687). -/
def workfileCandidates (fs : FS) (workdir : String) (extensions : List String) : List String :=
  pySorted ((fs.listdir workdir).filter
    (fun filename => extensions.contains (splitext filename).2))

/-- Embedding of `last_workfile_with_version` (pipeline.py:1631-1694):
`(None, None)` when the directory does not exist; otherwise filter the
listing by extension, build the matching pattern from the template
(optional groups to `.*?`, the version field — greedily to the last brace —
to `([0-9]+)`, comment fields to `.+?`, then fill the remaining template
and append the anchored extension alternation) and keep the
highest-versioned match, later filenames winning ties (`>=` over a sorted
listing).  Case-sensitive matching (the `re.IGNORECASE` flag is only added
on Windows). -/
def last_workfile_with_version (fs : FS) (workdir file_template : String)
    (fill_data : List (String × String)) (extensions : List String) :
    Except PyErr (Option String × Option Nat) :=
  if !(fs.pathExists workdir) then .ok (none, none)
  else
    match format_template_with_optional_keys fill_data (buildWorkfileTemplate file_template) with
    | .error e => .error e
    | .ok partially_filled =>
      let pattern := buildWorkfilePattern partially_filled extensions
      match parseRegexGo (pattern.data.length + 1) pattern.data with
      | none => .error .regexUnsupported
      | some toks => lastWorkfileLoop toks (workfileCandidates fs workdir extensions) (none, none)

/-- Filesystem of the C6 example: directory `wd` with the three scene
files. -/
def c6Fs : FS :=
  { pathExists := fun p => p == "wd",
    listdir := fun p => if p == "wd" then
        ["scene_v001.ma", "scene_v002.ma", "scene_v010.ma"] else [],
    normpath := fun p => p }

/-- Counterexample for C6 as stated: with the template
`scene_v\x7bversion:0>3\x7d.ma` the derived pattern is
`^scene_v([0-9]+).ma(?:\.ma)$` — the literal `.ma` of the template *and*
the appended extension alternation must both match, which no listed file
can satisfy — so the function returns `(None, None)`, not
`("scene_v010.ma", 10)`. -/
theorem last_workfile_with_version_counterexample :
    last_workfile_with_version c6Fs "wd" "scene_v\x7bversion:0>3\x7d.ma" [] [".ma"] =
      .ok (none, none) ∧
    (Except.ok ((none : Option String), (none : Option Nat)) :
        Except PyErr (Option String × Option Nat)) ≠
      .ok (some "scene_v010.ma", some 10) := by
  refine ⟨by decide, by decide⟩

/-- Code-point comparison is reflexive. -/
theorem strListLe_refl : ∀ as, strListLe as as = true
  | [] => rfl
  | a :: as => by
    unfold strListLe
    rw [if_neg (by omega), if_neg (by omega)]
    exact strListLe_refl as

/-- Code-point comparison is total. -/
theorem strListLe_total : ∀ as bs, strListLe as bs = true ∨ strListLe bs as = true
  | [], _ => Or.inl rfl
  | _ :: _, [] => Or.inr rfl
  | a :: as, b :: bs => by
    unfold strListLe
    by_cases h1 : a.toNat < b.toNat
    · left
      rw [if_pos h1]
    · by_cases h2 : b.toNat < a.toNat
      · right
        rw [if_pos h2]
      · have hab : ¬ a.toNat < b.toNat := h1
        rw [if_neg h1, if_neg h2, if_neg h2, if_neg h1]
        exact strListLe_total as bs

/-- Code-point comparison is transitive. -/
theorem strListLe_trans : ∀ as bs cs, strListLe as bs = true → strListLe bs cs = true →
    strListLe as cs = true
  | [], _, _ => by
    intro _ _
    rfl
  | _ :: _, [], _ => by
    intro h _
    exact absurd h (by simp [strListLe])
  | _ :: _, _ :: _, [] => by
    intro _ h
    exact absurd h (by simp [strListLe])
  | a :: as, b :: bs, c :: cs => by
    intro h1 h2
    unfold strListLe at *
    by_cases hab : a.toNat < b.toNat
    · by_cases hbc : b.toNat < c.toNat
      · rw [if_pos (by omega)]
      · rw [if_neg hbc] at h2
        by_cases hcb : c.toNat < b.toNat
        · rw [if_pos hcb] at h2
          exact absurd h2 (by simp)
        · rw [if_pos (by omega)]
    · rw [if_neg hab] at h1
      by_cases hba : b.toNat < a.toNat
      · rw [if_pos hba] at h1
        exact absurd h1 (by simp)
      · rw [if_neg hba] at h1
        by_cases hbc : b.toNat < c.toNat
        · rw [if_pos (by omega)]
        · rw [if_neg hbc] at h2
          by_cases hcb : c.toNat < b.toNat
          · rw [if_pos hcb] at h2
            exact absurd h2 (by simp)
          · rw [if_neg hcb] at h2
            rw [if_neg (by omega), if_neg (by omega)]
            exact strListLe_trans as bs cs h1 h2

/-- Membership in an insertion. -/
theorem mem_insertStr (a x : String) : ∀ l, x ∈ insertStr a l ↔ x = a ∨ x ∈ l
  | [] => by simp [insertStr]
  | b :: l => by
    unfold insertStr
    split
    · simp
    · rw [List.mem_cons, mem_insertStr a x l]
      constructor
      · rintro (h | h | h)
        · exact Or.inr (List.mem_cons.mpr (Or.inl h))
        · exact Or.inl h
        · exact Or.inr (List.mem_cons.mpr (Or.inr h))
      · rintro (h | h)
        · exact Or.inr (Or.inl h)
        · rcases List.mem_cons.mp h with h | h
          · exact Or.inl h
          · exact Or.inr (Or.inr h)

/-- Inserting into a code-point-sorted list keeps it sorted. -/
theorem pairwise_insertStr (a : String) :
    ∀ l, List.Pairwise (fun x y => pyStrLe x y = true) l →
      List.Pairwise (fun x y => pyStrLe x y = true) (insertStr a l)
  | [], _ => List.pairwise_singleton _ a
  | b :: l, h => by
    rcases List.pairwise_cons.mp h with ⟨hb, hl⟩
    unfold insertStr
    split
    · rename_i hab
      refine List.pairwise_cons.mpr ⟨?_, h⟩
      intro y hy
      rcases List.mem_cons.mp hy with hy | hy
      · rw [hy]
        exact hab
      · exact strListLe_trans a.data b.data y.data hab (hb y hy)
    · rename_i hab
      have hba : pyStrLe b a = true := by
        rcases strListLe_total a.data b.data with h' | h'
        · exact absurd h' hab
        · exact h'
      refine List.pairwise_cons.mpr ⟨?_, pairwise_insertStr a l hl⟩
      intro y hy
      rcases (mem_insertStr a y l).mp hy with hy | hy
      · rw [hy]
        exact hba
      · exact hb y hy

/-- `pySorted` produces a code-point-sorted list. -/
theorem pairwise_pySorted : ∀ l, List.Pairwise (fun x y => pyStrLe x y = true) (pySorted l)
  | [] => List.Pairwise.nil
  | a :: l => pairwise_insertStr a (pySorted l) (pairwise_pySorted l)

/-- The filename/version matches of the loop, in iteration order. -/
def matchedPairs (toks : List RTok) (files : List String) : List (String × Nat) :=
  files.filterMap (fun f =>
    match reMatchVersion toks f with
    | some (some vstr) => some (f, digitsToNat vstr.data)
    | _ => none)

/-- The names of the matches form a sublist of the filenames. -/
theorem matchedPairs_names_sublist (toks : List RTok) :
    ∀ files, ((matchedPairs toks files).map Prod.fst).Sublist files
  | [] => List.Sublist.refl []
  | f :: files => by
    unfold matchedPairs
    rw [List.filterMap_cons]
    rcases h : reMatchVersion toks f with _ | ov
    · exact (matchedPairs_names_sublist toks files).cons f
    · rcases ov with _ | vstr
      · exact (matchedPairs_names_sublist toks files).cons f
      · exact (matchedPairs_names_sublist toks files).cons₂ f

/-- One step of the version-selection fold (`file_version >= version` keeps
the newer filename). -/
def lwStep (acc : Option String × Option Nat) (p : String × Nat) :
    Option String × Option Nat :=
  match acc.2 with
  | none => (some p.1, some p.2)
  | some v => if p.2 ≥ v then (some p.1, some p.2) else acc

/-- Unfolding equation of `matchedPairs` on a cons cell. -/
theorem matchedPairs_cons (toks : List RTok) (f : String) (files : List String) :
    matchedPairs toks (f :: files) =
      (match reMatchVersion toks f with
        | some (some vstr) => (f, digitsToNat vstr.data) :: matchedPairs toks files
        | _ => matchedPairs toks files) := by
  unfold matchedPairs
  rw [List.filterMap_cons]
  rcases reMatchVersion toks f with _ | ov
  · rfl
  · rcases ov with _ | vstr <;> rfl

/-- Under the no-`IndexError` hypothesis, the loop is the fold of `lwStep`
over the matches. -/
theorem lastWorkfileLoop_eq (toks : List RTok) :
    ∀ (files : List String) (acc : Option String × Option Nat),
      (∀ f ∈ files, reMatchVersion toks f ≠ some none) →
      lastWorkfileLoop toks files acc = .ok ((matchedPairs toks files).foldl lwStep acc)
  | [], acc, _ => rfl
  | f :: files, (output_filename, version), hclean => by
    have hcleanf := hclean f (List.mem_cons_self ..)
    have hcleanr := fun g hg => hclean g (List.mem_cons_of_mem _ hg)
    rw [matchedPairs_cons]
    unfold lastWorkfileLoop
    rcases h : reMatchVersion toks f with _ | ov
    · exact lastWorkfileLoop_eq toks files _ hcleanr
    · rcases ov with _ | vstr
      · exact absurd h hcleanf
      · dsimp only
        rcases version with _ | v
        all_goals dsimp only
        · rw [lastWorkfileLoop_eq toks files _ hcleanr]
          simp only [List.foldl_cons]
          rw [show lwStep (output_filename, none) (f, digitsToNat vstr.data) =
              (some f, some (digitsToNat vstr.data)) from rfl]
        · by_cases hd : digitsToNat vstr.data ≥ v
          · rw [if_pos hd, lastWorkfileLoop_eq toks files _ hcleanr]
            simp only [List.foldl_cons]
            rw [show lwStep (output_filename, some v) (f, digitsToNat vstr.data) =
                (some f, some (digitsToNat vstr.data)) from by
              unfold lwStep
              dsimp only
              rw [if_pos hd]]
          · rw [if_neg hd, lastWorkfileLoop_eq toks files _ hcleanr]
            simp only [List.foldl_cons]
            rw [show lwStep (output_filename, some v) (f, digitsToNat vstr.data) =
                (output_filename, some v) from by
              unfold lwStep
              dsimp only
              rw [if_neg hd]]

/-- Invariant of the selection fold: starting from a best candidate whose
name precedes every remaining match, the fold returns a pair whose version
dominates all matches and, among equal versions, whose name is the
code-point-latest. -/
theorem lwFold_aux (pairs : List (String × Nat)) :
    ∀ (f0 : String) (v0 : Nat),
      (∀ x ∈ pairs, pyStrLe f0 x.1 = true) →
      List.Pairwise (fun a b => pyStrLe a.1 b.1 = true) pairs →
      ∃ bf bv, pairs.foldl lwStep (some f0, some v0) = (some bf, some bv) ∧
        ((bf, bv) = (f0, v0) ∨ (bf, bv) ∈ pairs) ∧
        v0 ≤ bv ∧ (∀ x ∈ pairs, x.2 ≤ bv) ∧
        pyStrLe f0 bf = true ∧
        (∀ x ∈ pairs, x.2 = bv → pyStrLe x.1 bf = true) := by
  induction pairs with
  | nil =>
    intro f0 v0 _ _
    exact ⟨f0, v0, rfl, Or.inl rfl, le_refl v0, by simp, strListLe_refl f0.data, by simp⟩
  | cons p rest ih =>
    intro f0 v0 hf0 hpw
    rcases List.pairwise_cons.mp hpw with ⟨hp, hrest⟩
    have hstep : List.foldl lwStep (some f0, some v0) (p :: rest) =
        List.foldl lwStep (lwStep (some f0, some v0) p) rest := rfl
    by_cases hge : p.2 ≥ v0
    · have hstep2 : lwStep (some f0, some v0) p = (some p.1, some p.2) := by
        unfold lwStep
        dsimp only
        rw [if_pos hge]
      rcases ih p.1 p.2 hp hrest with ⟨bf, bv, heq, horig, hvle, hmax, hfb, htie⟩
      refine ⟨bf, bv, by rw [hstep, hstep2, heq], ?_, le_trans hge hvle, ?_, ?_, ?_⟩
      · rcases horig with h' | h'
        · refine Or.inr (List.mem_cons.mpr (Or.inl ?_))
          rw [h']
        · exact Or.inr (List.mem_cons_of_mem _ h')
      · intro x hx
        rcases List.mem_cons.mp hx with hx | hx
        · rw [hx]
          exact hvle
        · exact hmax x hx
      · exact strListLe_trans f0.data p.1.data bf.data (hf0 p (List.mem_cons_self ..)) hfb
      · intro x hx hxv
        rcases List.mem_cons.mp hx with hx | hx
        · rw [hx]
          exact hfb
        · exact htie x hx hxv
    · have hstep2 : lwStep (some f0, some v0) p = (some f0, some v0) := by
        unfold lwStep
        dsimp only
        rw [if_neg hge]
      rcases ih f0 v0 (fun x hx => hf0 x (List.mem_cons_of_mem _ hx)) hrest with
        ⟨bf, bv, heq, horig, hvle, hmax, hfb, htie⟩
      refine ⟨bf, bv, by rw [hstep, hstep2, heq], ?_, hvle, ?_, hfb, ?_⟩
      · rcases horig with h' | h'
        · exact Or.inl h'
        · exact Or.inr (List.mem_cons_of_mem _ h')
      · intro x hx
        rcases List.mem_cons.mp hx with hx | hx
        · rw [hx]
          omega
        · exact hmax x hx
      · intro x hx hxv
        rcases List.mem_cons.mp hx with hx | hx
        · exfalso
          rw [hx] at hxv
          omega
        · exact htie x hx hxv

/-- The matches of the sorted candidate list are name-sorted. -/
theorem pairwise_matchedPairs (toks : List RTok) (fs : FS) (workdir : String)
    (extensions : List String) :
    List.Pairwise (fun a b => pyStrLe a.1 b.1 = true)
      (matchedPairs toks (workfileCandidates fs workdir extensions)) := by
  have hs := pairwise_pySorted
    ((fs.listdir workdir).filter (fun filename => extensions.contains (splitext filename).2))
  have hsub := matchedPairs_names_sublist toks (workfileCandidates fs workdir extensions)
  have hp : List.Pairwise (fun x y => pyStrLe x y = true)
      ((matchedPairs toks (workfileCandidates fs workdir extensions)).map Prod.fst) :=
    (pairwise_pySorted _).sublist hsub
  exact List.pairwise_map.mp hp

/-- C6 (amended): `last_workfile_with_version` returns `(None, None)` when
the directory does not exist or no candidate matches the derived pattern;
otherwise it returns a matching filename with the highest parsed version,
and among equal versions the code-point-latest filename (sorted iteration
with `>=` keeps the latest seen).  The spec's concrete example is corrected
by the counterexample: with the literal-extension template the code yields
`(None, None)`; the example holds for the `\x7bext\x7d`-field template
(see the witness). -/
theorem last_workfile_with_version_spec (fs : FS) (workdir file_template : String)
    (fill_data : List (String × String)) (extensions : List String)
    (partially_filled : String) (toks : List RTok)
    (hfmt : format_template_with_optional_keys fill_data
      (buildWorkfileTemplate file_template) = .ok partially_filled)
    (hparse : parseRegexGo ((buildWorkfilePattern partially_filled extensions).data.length + 1)
      (buildWorkfilePattern partially_filled extensions).data = some toks)
    (hclean : ∀ f ∈ workfileCandidates fs workdir extensions,
      reMatchVersion toks f ≠ some none) :
    (fs.pathExists workdir = false →
      last_workfile_with_version fs workdir file_template fill_data extensions =
        .ok (none, none)) ∧
    (fs.pathExists workdir = true →
      matchedPairs toks (workfileCandidates fs workdir extensions) = [] →
      last_workfile_with_version fs workdir file_template fill_data extensions =
        .ok (none, none)) ∧
    (fs.pathExists workdir = true →
      ∀ p ∈ matchedPairs toks (workfileCandidates fs workdir extensions),
      ∃ bf bv,
        last_workfile_with_version fs workdir file_template fill_data extensions =
          .ok (some bf, some bv) ∧
        (bf, bv) ∈ matchedPairs toks (workfileCandidates fs workdir extensions) ∧
        (∀ x ∈ matchedPairs toks (workfileCandidates fs workdir extensions), x.2 ≤ bv) ∧
        (∀ x ∈ matchedPairs toks (workfileCandidates fs workdir extensions),
          x.2 = bv → pyStrLe x.1 bf = true)) := by
  refine ⟨?_, ?_, ?_⟩
  · intro hx
    unfold last_workfile_with_version
    rw [hx]
    rfl
  · intro hx hnil
    unfold last_workfile_with_version
    rw [hx, hfmt]
    simp only [Bool.not_true, Bool.false_eq_true, if_false]
    rw [hparse]
    dsimp only
    rw [lastWorkfileLoop_eq toks _ _ hclean, hnil]
    rfl
  · intro hx p hp
    rcases hpairs : matchedPairs toks (workfileCandidates fs workdir extensions) with _ | ⟨q, rest⟩
    · rw [hpairs] at hp
      exact absurd hp (List.not_mem_nil p)
    · have hpw := pairwise_matchedPairs toks fs workdir extensions
      rw [hpairs] at hpw
      rcases List.pairwise_cons.mp hpw with ⟨hq, hrest⟩
      rcases lwFold_aux rest q.1 q.2 hq hrest with ⟨bf, bv, heq, horig, hvle, hmax, hfb, htie⟩
      refine ⟨bf, bv, ?_, ?_, ?_, ?_⟩
      · unfold last_workfile_with_version
        rw [hx, hfmt]
        simp only [Bool.not_true, Bool.false_eq_true, if_false]
        rw [hparse]
        dsimp only
        rw [lastWorkfileLoop_eq toks _ _ hclean, hpairs]
        rw [show List.foldl lwStep (none, none) (q :: rest) =
            List.foldl lwStep (some q.1, some q.2) rest from rfl]
        rw [heq]
      · rcases horig with h' | h'
        · refine List.mem_cons.mpr (Or.inl ?_)
          rw [h']
        · exact List.mem_cons_of_mem _ h'
      · intro x hx'
        rcases List.mem_cons.mp hx' with hx' | hx'
        · rw [hx']
          exact hvle
        · exact hmax x hx'
      · intro x hx' hxv
        rcases List.mem_cons.mp hx' with hx' | hx'
        · rw [hx']
          exact hfb
        · exact htie x hx' hxv

/-- The token list of the C6 witness pattern `scene_v([0-9]+)(?:\.ma)`. -/
def c6WitToks : List RTok :=
  [.lit 's', .lit 'c', .lit 'e', .lit 'n', .lit 'e', .lit '_', .lit 'v', .vgroup,
   .alts [['.', 'm', 'a']]]

/-- Witness for the amended C6: with the `\x7bext\x7d`-field template the
greedy version substitution swallows the trailing field, the derived
pattern matches all three scene files, and the highest version (the
code-point-latest on ties) is selected: `("scene_v010.ma", 10)`. -/
theorem last_workfile_with_version_spec_witness :
    (∃ bf bv,
      last_workfile_with_version c6Fs "wd" "scene_v\x7bversion:0>3\x7d.\x7bext\x7d" [] [".ma"] =
        .ok (some bf, some bv) ∧
      (bf, bv) ∈ matchedPairs c6WitToks (workfileCandidates c6Fs "wd" [".ma"]) ∧
      (∀ x ∈ matchedPairs c6WitToks (workfileCandidates c6Fs "wd" [".ma"]), x.2 ≤ bv) ∧
      (∀ x ∈ matchedPairs c6WitToks (workfileCandidates c6Fs "wd" [".ma"]),
        x.2 = bv → pyStrLe x.1 bf = true)) ∧
    last_workfile_with_version c6Fs "wd" "scene_v\x7bversion:0>3\x7d.\x7bext\x7d" [] [".ma"] =
      .ok (some "scene_v010.ma", some 10) :=
  ⟨(last_workfile_with_version_spec c6Fs "wd" "scene_v\x7bversion:0>3\x7d.\x7bext\x7d" []
      [".ma"] "scene_v([0-9]+)" c6WitToks (by decide) (by decide) (by decide)).2.2
    rfl ("scene_v001.ma", 1) (by decide),
   by decide⟩

end Avalon
